import Mathlib

/-!
Shallow embedding of the two GitHub GraphQL client scripts
`graal_report.py` and `unassigned_issues.py`.

Python dictionaries are embedded as association lists in insertion order
(`dictSet` replaces the first binding with an equal key in place, otherwise
appends at the end, exactly like assignment into a `dict`).  Timestamps
(`datetime` values obtained from `parse_datetime`) are embedded as integers
(seconds); `timedelta.days` becomes floor division by 86400.  The HTTP
transport is embedded as a transcript: the list of responses the server
would hand to the successive `run_query` calls of one fetch loop.
-/

namespace GH

/-- Embedding of a Python `dict` membership test (`k in m`). -/
def dictHas {K V : Type} [BEq K] (m : List (K × V)) (k : K) : Bool :=
  m.any (fun p => p.1 == k)

/-- Embedding of a Python `dict` read (`m.get(k)` / `m[k]` when present). -/
def dictGet? {K V : Type} [BEq K] (m : List (K × V)) (k : K) : Option V :=
  (m.find? (fun p => p.1 == k)).map (fun p => p.2)

/-- Embedding of a Python `dict` assignment `m[k] = v`: replace the first
binding with key `k` in place, else append at the end (insertion order). -/
def dictSet {K V : Type} [BEq K] (m : List (K × V)) (k : K) (v : V) : List (K × V) :=
  match m with
  | [] => [(k, v)]
  | p :: rest => if p.1 == k then (k, v) :: rest else p :: dictSet rest k v

/-- Keys of an embedded dictionary, in insertion order. -/
def dictKeys {K V : Type} (m : List (K × V)) : List K :=
  m.map (fun p => p.1)

/-- Page-level continuation marker delivered by the GraphQL API
(`pageInfo { hasNextPage endCursor }`). -/
structure PageInfo where
  hasNextPage : Bool
  endCursor : String
deriving DecidableEq

/-- One page of results as consumed by the fetch loops: the node list
extracted from `edges[].node` plus the continuation marker. -/
structure PageOf (α : Type) where
  totalCount : Nat
  pageInfo : PageInfo
  nodes : List α
deriving DecidableEq

/-- Parsed body of one transport response.  `raw` is the response text
(`print(result)` shows it on a shape failure); `page` is `some` when all of
the nested fields `data.repositoryOwner.repository.<kind>s`, `edges` and
`pageInfo` are present, and `none` when any expected field is missing
(in Python the missing lookup raises `KeyError`). -/
structure Body (α : Type) where
  raw : String
  page : Option (PageOf α)
deriving DecidableEq

/-- One transport response: HTTP status plus parsed body. -/
structure Resp (α : Type) where
  status : Nat
  body : Body α
deriving DecidableEq

/-- Outcome of one `get_nodes` style fetch.  `ok` carries the accumulated
node dictionary; `badStatus` is the `Exception` raised by `run_query`
(status code and query document); `shapeExit` is `graal_report.py`'s
`except KeyError` handler (prints the offending response body, then
`SystemExit`); `keyError` is an uncaught Python `KeyError` carrying the
missing key; `hung` marks a transcript exhausted while the loop still
expected another page (the real program would block on the network). -/
inductive FetchOutcome (α : Type) where
  | ok (all_nodes : List (Int × α))
  | badStatus (code : Nat) (query : String)
  | shapeExit (raw : String)
  | keyError (key : String)
  | hung
deriving DecidableEq

end GH

namespace GraalReport

open GH

/-- Author of a timeline comment as selected by `_node_info1`:
`login` plus the (nullable) result of `organization(login: "oracle")`. -/
structure CAuthor where
  login : String
  organization : Option String
deriving DecidableEq

/-- One timeline entry that is an `IssueComment` (`updatedAt`, `url`,
nullable `author`).  Timestamps are embedded as integer seconds. -/
structure CItem where
  updatedAt : Int
  url : String
  author : Option CAuthor
deriving DecidableEq

/-- One issue/pull-request node as selected by `_node_info1`.  A `none`
entry of `timelineItems` embeds a timeline item that is not an
`IssueComment` (the GraphQL inline fragment returns an empty object,
which is falsy in Python). -/
structure Node1 where
  number : Int
  url : String
  title : String
  assigneesTotalCount : Nat
  timelineItems : List (Option CItem)
deriving DecidableEq

/-- Field selection `_node_info1` of `graal_report.py` (verbatim). -/
def _node_info1 : String :=
  "\nnumber\nurl\ntitle\nassignees(first: 1) \x7b\n  totalCount\n\x7d\ntimelineItems(last:10) \x7b\n  edges \x7b\n    node \x7b\n      ... on IssueComment \x7b\n        updatedAt\n        url\n        author \x7b\n          ... on User \x7b\n              organization(login: \"oracle\") \x7b\n              login\n            \x7d\n          \x7d\n          login\n        \x7d\n      \x7d\n    \x7d\n  \x7d\n\x7d\n"

/-- Field selection `_node_info2` of `graal_report.py` (verbatim). -/
def _node_info2 : String :=
  "\nnumber\nauthor \x7b\n  ... on User \x7b\n    login\n    organizations(first:5) \x7b\n      edges \x7b\n        node \x7b\n          login\n        \x7d\n      \x7d\n    \x7d\n  \x7d\n\x7d\ncreatedAt\nclosedAt\n"

/-- Embedding of `get_open_nodes_query` of `graal_report.py`.  The Python
conditional `'"{}"'.format(cursor) if cursor else 'null'` treats both
`None` and the empty string as absent. -/
def get_open_nodes_query (node_type node_info states : String) (cursor : Option String) : String :=
  let after := match cursor with
    | some c => if c = "" then "null" else "\"" ++ c ++ "\""
    | none => "null"
  "\n\x7b\n  repositoryOwner(login: \"oracle\") \x7b\n    repository(name: \"graal\") \x7b\n      "
    ++ node_type ++ "s(first: 100, states:" ++ states ++ ", after:" ++ after
    ++ ") \x7b\n        totalCount\n        pageInfo \x7b\n          hasNextPage\n          endCursor\n        \x7d\n        edges \x7b\n          node \x7b"
    ++ node_info ++ " \x7d\n        \x7d\n      \x7d\n    \x7d\n  \x7d\n\x7d\n"

/-- Embedding of `run_query` (both `graal_report.py` and
`unassigned_issues.py` use the same logic): on HTTP status 200 return the
parsed body, otherwise raise an `Exception` carrying the status code and
the query document. -/
def run_query {α : Type} (r : Resp α) (query : String) : Except (Nat × String) (Body α) :=
  if r.status = 200 then Except.ok r.body else Except.error (r.status, query)

/-- Embedding of the `while True` fetch loop of `get_nodes` in
`graal_report.py`, driven by the transcript of transport responses in the
order the server produces them.  Each iteration runs `run_query` on the
query for the current cursor, merges `edges[].node` into `all_nodes` keyed
by `node["number"]`, then either stops (`hasNextPage` not true) or recurses
with the cursor advanced to `endCursor`. -/
def get_nodes_loop {α : Type} (num : α → Int) :
    List (Resp α) → String → String → String → Option String → List (Int × α) →
    FetchOutcome α
  | [], _, _, _, _, _ => FetchOutcome.hung
  | r :: rest, node_type, node_info, states, endCursor, all_nodes =>
    match run_query r (get_open_nodes_query node_type node_info states endCursor) with
    | Except.error (code, q) => FetchOutcome.badStatus code q
    | Except.ok body =>
      match body.page with
      | none => FetchOutcome.shapeExit body.raw
      | some pg =>
        let all_nodes' := pg.nodes.foldl (fun m n => dictSet m (num n) n) all_nodes
        if pg.pageInfo.hasNextPage then
          get_nodes_loop num rest node_type node_info states (some pg.pageInfo.endCursor) all_nodes'
        else
          FetchOutcome.ok all_nodes'

/-- Embedding of `get_nodes` of `graal_report.py`, including the module
level memo dictionary `_cached_results`.  Mirrors the source exactly: the
membership test uses `key = node_type + node_info`, but the read on a hit
is `_cached_results[node_type]` — looked up under `node_type` alone. -/
def get_nodes {α : Type} (num : α → Int) (_cached_results : List (String × List (Int × α)))
    (transcript : List (Resp α)) (node_type node_info states : String) :
    FetchOutcome α × List (String × List (Int × α)) :=
  let key := node_type ++ node_info
  if dictHas _cached_results key then
    match dictGet? _cached_results node_type with
    | some cached => (FetchOutcome.ok cached, _cached_results)
    | none => (FetchOutcome.keyError node_type, _cached_results)
  else
    match get_nodes_loop num transcript node_type node_info states none [] with
    | FetchOutcome.ok all_nodes =>
      (FetchOutcome.ok all_nodes, dictSet _cached_results key all_nodes)
    | e => (e, _cached_results)

/-- Pages actually consumed by the fetch loop: every page up to and
including the first one whose `hasNextPage` is false. -/
def takenPages {α : Type} : List (PageOf α) → List (PageOf α)
  | [] => []
  | p :: rest => if p.pageInfo.hasNextPage then p :: takenPages rest else [p]

/-- Merge one page's nodes into the accumulated dictionary, keyed by
`node["number"]`, exactly as the `for e in edges` loop does. -/
def mergePage {α : Type} (num : α → Int) (m : List (Int × α)) (p : PageOf α) : List (Int × α) :=
  p.nodes.foldl (fun m n => dictSet m (num n) n) m

/-- A transcript in which every response has status 200 and a well-shaped
body holding the corresponding page. -/
def okResponses {α : Type} (pages : List (PageOf α)) : List (Resp α) :=
  pages.map (fun p => { status := 200, body := { raw := "", page := some p } })

/-- All nodes of a page list, page by page in fetch order. -/
def concatNodes {α : Type} (pages : List (PageOf α)) : List α :=
  (pages.map (fun p => p.nodes)).flatten

/-- Embedding of `show_unassigned_nodes` of `graal_report.py`, presentation
stripped: `sorted(nodes.items(), reverse=True)` iterates the node
dictionary by key in descending order; each node with
`int(node["assignees"]["totalCount"]) == 0` produces one report line and
bumps the counter.  Returns the reported nodes in print order and the
final `total_unassigned`. -/
def show_unassigned_nodes (nodes : List (Int × Node1)) : List Node1 × Nat :=
  let sortedItems := List.insertionSort (fun a b : Int × Node1 => b.1 ≤ a.1) nodes
  let reported := (sortedItems.filter (fun p => p.2.assigneesTotalCount == 0)).map (fun p => p.2)
  (reported, reported.length)

/-- Embedding of the inner `for edge in timeline["edges"]` loop of
`show_no_recent_activity_nodes`: skip falsy items (non-comments), skip
comments with a null author or a null `organization`, and otherwise keep
the pair `(item["url"], parse_datetime(item["updatedAt"]))` with the
strictly greatest timestamp seen so far. -/
def last_oracle_comment : List (Option CItem) → Option (String × Int) → Option (String × Int)
  | [], acc => acc
  | item? :: rest, acc =>
    match item? with
    | none => last_oracle_comment rest acc
    | some item =>
      match item.author with
      | none => last_oracle_comment rest acc
      | some author =>
        match author.organization with
        | none => last_oracle_comment rest acc
        | some _ =>
          match acc with
          | none => last_oracle_comment rest (some (item.url, item.updatedAt))
          | some (url, previous_updated_at) =>
            if previous_updated_at < item.updatedAt then
              last_oracle_comment rest (some (item.url, item.updatedAt))
            else
              last_oracle_comment rest (some (url, previous_updated_at))

/-- The timeline entries the staleness scan acts on: truthy items whose
author is present and has a non-null `organization(login: "oracle")`. -/
def qualifying_item : Option CItem → Option CItem
  | none => none
  | some item =>
    match item.author with
    | none => none
    | some author =>
      match author.organization with
      | none => none
      | some _ => some item

/-- Qualifying comment entries of a timeline, in scan order. -/
def qualifying (timeline : List (Option CItem)) : List CItem :=
  timeline.filterMap qualifying_item

/-- One step of the retention fold: keep the stored pair unless the new
comment's timestamp is strictly greater. -/
def retain (acc : Option (String × Int)) (item : CItem) : Option (String × Int) :=
  match acc with
  | none => some (item.url, item.updatedAt)
  | some (url, previous_updated_at) =>
    if previous_updated_at < item.updatedAt then some (item.url, item.updatedAt)
    else some (url, previous_updated_at)

/-- One report line of `show_no_recent_activity_nodes`. -/
inductive ReportLine where
  | noOracleComments (url title : String)
  | stale (url title : String) (days : Int) (commentUrl : String)
deriving DecidableEq

/-- Per-node body of `show_no_recent_activity_nodes`: report the node with
the "(no Oracle comments)" label when no qualifying comment exists, report
it with the day count and comment URL when `(now - updated_at).days > 30`
(`timedelta.days` floors, hence `Int.fdiv` by 86400 seconds), and print
nothing otherwise. -/
def no_recent_activity_line (now : Int) (node : Node1) : Option ReportLine :=
  match last_oracle_comment node.timelineItems none with
  | none => some (ReportLine.noOracleComments node.url node.title)
  | some (url, updated_at) =>
    let days := Int.fdiv (now - updated_at) 86400
    if 30 < days then some (ReportLine.stale node.url node.title days url) else none

/-- Embedding of `show_no_recent_activity_nodes` of `graal_report.py`,
presentation stripped: nodes are visited by key in descending order and
each visit emits at most one report line. -/
def show_no_recent_activity_nodes (now : Int) (nodes : List (Int × Node1)) : List ReportLine :=
  (List.insertionSort (fun a b : Int × Node1 => b.1 ≤ a.1) nodes).filterMap
    (fun p => no_recent_activity_line now p.2)

/-- Author of a node as selected by `_node_info2`: `login` plus the logins
of the organizations returned by `organizations(first:5)`. -/
structure OrgAuthor where
  login : String
  organizations : List String
deriving DecidableEq

/-- Creation timestamp as used by `show_nodes_opened_per_year`: only the
`year` component of the parsed `createdAt` is consumed. -/
structure CreatedAt where
  year : Int
deriving DecidableEq

/-- One node as selected by `_node_info2`. -/
structure Node2 where
  number : Int
  author : Option OrgAuthor
  createdAt : CreatedAt
  closedAt : Option CreatedAt
deriving DecidableEq

/-- Body of the `for node in nodes.values()` loop of
`show_nodes_opened_per_year`: skip authorless nodes; otherwise bump the
counter for the creation year and for the label `"oracle"` when the
author's returned organizations contain `oracle`, else `"other"`
(`setdefault`/`get` semantics on nested dictionaries). -/
def opened_per_year_step (opened_per_year : List (Int × List (String × Nat))) (node : Node2) :
    List (Int × List (String × Nat)) :=
  match node.author with
  | none => opened_per_year
  | some author =>
    let created_year := node.createdAt.year
    let orgs := author.organizations
    let key := if orgs.contains "oracle" then "oracle" else "other"
    let opened := (dictGet? opened_per_year created_year).getD []
    let opened' := dictSet opened key (((dictGet? opened key).getD 0) + 1)
    dictSet opened_per_year created_year opened'

/-- Embedding of `show_nodes_opened_per_year` of `graal_report.py`,
presentation stripped: fold the per-node bump over `nodes.values()` in
dictionary order, producing the nested year → label → count dictionary. -/
def show_nodes_opened_per_year (nodes : List (Int × Node2)) : List (Int × List (String × Nat)) :=
  (nodes.map (fun p => p.2)).foldl opened_per_year_step []

/-- Bucket a node contributes to: `none` for authorless nodes, otherwise
the pair (creation year, affiliation label). -/
def bucketOf (node : Node2) : Option (Int × String) :=
  match node.author with
  | none => none
  | some author =>
    some (node.createdAt.year, if author.organizations.contains "oracle" then "oracle" else "other")

/-- Count stored in the inner label → count dictionary (0 when absent). -/
def lookupLabel (opened : List (String × Nat)) (key : String) : Nat :=
  (dictGet? opened key).getD 0

/-- Count stored in the nested year → label → count dictionary. -/
def lookupCount (opened_per_year : List (Int × List (String × Nat))) (year : Int) (key : String) : Nat :=
  lookupLabel ((dictGet? opened_per_year year).getD []) key

end GraalReport

namespace UnassignedIssues

open GH

/-- One node as selected by the query of `unassigned_issues.py`. -/
structure UNode where
  number : Int
  url : String
  state : String
  title : String
  assigneesTotalCount : Nat
deriving DecidableEq

/-- Embedding of `get_open_nodes_query` of `unassigned_issues.py`. -/
def get_open_nodes_query (node_type : String) (cursor : Option String) : String :=
  let after := match cursor with
    | some c => ", after: \"" ++ c ++ "\""
    | none => ""
  "\n\x7b\n  repositoryOwner(login: \"oracle\") \x7b\n    repository(name: \"graal\") \x7b\n      "
    ++ node_type ++ "s(first: 100, states:OPEN" ++ after
    ++ ") \x7b\n        totalCount\n        pageInfo \x7b\n          hasNextPage\n          endCursor\n        \x7d\n        edges \x7b\n          node \x7b\n            number\n            url\n            state\n            title\n            assignees(first: 1) \x7b\n              totalCount\n            \x7d\n          \x7d\n        \x7d\n      \x7d\n    \x7d\n  \x7d\n\x7d\n"

/-- Embedding of the `while True` fetch loop of `get_nodes` in
`unassigned_issues.py` (no cache, no `try`: a missing field is an uncaught
`KeyError`). -/
def get_nodes (transcript : List (Resp UNode)) (node_type : String) (endCursor : Option String)
    (all_nodes : List (Int × UNode)) : FetchOutcome UNode :=
  match transcript with
  | [] => FetchOutcome.hung
  | r :: rest =>
    match GraalReport.run_query r (get_open_nodes_query node_type endCursor) with
    | Except.error (code, q) => FetchOutcome.badStatus code q
    | Except.ok body =>
      match body.page with
      | none => FetchOutcome.keyError "data"
      | some pg =>
        let all_nodes' := pg.nodes.foldl (fun m n => dictSet m n.number n) all_nodes
        if pg.pageInfo.hasNextPage then
          get_nodes rest node_type (some pg.pageInfo.endCursor) all_nodes'
        else
          FetchOutcome.ok all_nodes'

/-- Embedding of `show_unassigned_nodes` of `unassigned_issues.py`,
presentation stripped: `sorted(nodes.items())` iterates by key in
ASCENDING order; each node with zero assignees produces one line and bumps
the counter. -/
def show_unassigned_nodes (nodes : List (Int × UNode)) : List UNode × Nat :=
  let sortedItems := List.insertionSort (fun a b : Int × UNode => a.1 ≤ b.1) nodes
  let reported := (sortedItems.filter (fun p => p.2.assigneesTotalCount == 0)).map (fun p => p.2)
  (reported, reported.length)

end UnassignedIssues

namespace GH

theorem dictGet?_nil {K V : Type} [BEq K] (k : K) : dictGet? ([] : List (K × V)) k = none := rfl

theorem dictGet?_cons {K V : Type} [BEq K] (p : K × V) (m : List (K × V)) (k : K) :
    dictGet? (p :: m) k = if p.1 == k then some p.2 else dictGet? m k := by
  cases hb : p.1 == k <;> simp [dictGet?, List.find?, hb]

theorem dictHas_nil {K V : Type} [BEq K] (k : K) : dictHas ([] : List (K × V)) k = false := rfl

theorem dictHas_cons {K V : Type} [BEq K] (p : K × V) (m : List (K × V)) (k : K) :
    dictHas (p :: m) k = ((p.1 == k) || dictHas m k) := by
  simp [dictHas]

theorem dictGet?_dictSet {K V : Type} [BEq K] [LawfulBEq K] (m : List (K × V)) (k k' : K) (v : V) :
    dictGet? (dictSet m k v) k' = if k' == k then some v else dictGet? m k' := by
  induction m with
  | nil =>
    by_cases h : k' = k
    · subst h; simp [dictSet, dictGet?_cons]
    · have h1 : (k' == k) = false := beq_eq_false_iff_ne.mpr h
      have h2 : (k == k') = false := beq_eq_false_iff_ne.mpr (Ne.symm h)
      simp [dictSet, dictGet?_cons, h1, h2]
  | cons p rest ih =>
    by_cases hpk : p.1 = k
    · have hb : (p.1 == k) = true := beq_iff_eq.mpr hpk
      by_cases h : k' = k
      · subst h
        simp [dictSet, dictGet?_cons, hb]
      · have h1 : (k' == k) = false := beq_eq_false_iff_ne.mpr h
        have h2 : (k == k') = false := beq_eq_false_iff_ne.mpr (Ne.symm h)
        have h3 : (p.1 == k') = false := beq_eq_false_iff_ne.mpr (by rw [hpk]; exact Ne.symm h)
        simp [dictSet, dictGet?_cons, hb, h1, h2, h3]
    · have hb : (p.1 == k) = false := beq_eq_false_iff_ne.mpr hpk
      by_cases hp' : p.1 = k'
      · have h3 : (p.1 == k') = true := beq_iff_eq.mpr hp'
        have h : ¬ k' = k := fun e => hpk (hp'.trans e)
        have h1 : (k' == k) = false := beq_eq_false_iff_ne.mpr h
        simp [dictSet, dictGet?_cons, hb, h3, h1]
      · have h3 : (p.1 == k') = false := beq_eq_false_iff_ne.mpr hp'
        simp [dictSet, dictGet?_cons, hb, h3, ih]

theorem dictHas_dictSet {K V : Type} [BEq K] [LawfulBEq K] (m : List (K × V)) (k k' : K) (v : V) :
    dictHas (dictSet m k v) k' = ((k' == k) || dictHas m k') := by
  induction m with
  | nil =>
    by_cases h : k' = k
    · subst h; simp [dictSet, dictHas_cons, dictHas_nil]
    · have h1 : (k' == k) = false := beq_eq_false_iff_ne.mpr h
      have h2 : (k == k') = false := beq_eq_false_iff_ne.mpr (Ne.symm h)
      simp [dictSet, dictHas_cons, dictHas_nil, h1, h2]
  | cons p rest ih =>
    by_cases hpk : p.1 = k
    · have hb : (p.1 == k) = true := beq_iff_eq.mpr hpk
      by_cases h : k' = k
      · subst h
        have h2 : (k' == k') = true := beq_iff_eq.mpr rfl
        simp [dictSet, dictHas_cons, hb, h2, hpk]
      · have h1 : (k' == k) = false := beq_eq_false_iff_ne.mpr h
        have h2 : (k == k') = false := beq_eq_false_iff_ne.mpr (Ne.symm h)
        have h3 : (p.1 == k') = false := beq_eq_false_iff_ne.mpr (by rw [hpk]; exact Ne.symm h)
        simp [dictSet, dictHas_cons, hb, h1, h2, h3]
    · have hb : (p.1 == k) = false := beq_eq_false_iff_ne.mpr hpk
      cases h3 : p.1 == k' <;> simp [dictSet, dictHas_cons, hb, h3, ih]

theorem dictKeys_dictSet {K V : Type} [BEq K] [LawfulBEq K] (m : List (K × V)) (k : K) (v : V) :
    dictKeys (dictSet m k v) = if dictHas m k then dictKeys m else dictKeys m ++ [k] := by
  induction m with
  | nil => simp [dictSet, dictHas_nil, dictKeys]
  | cons p rest ih =>
    by_cases hpk : p.1 = k
    · have hb : (p.1 == k) = true := beq_iff_eq.mpr hpk
      simp [dictSet, dictHas_cons, dictKeys, hb, hpk]
    · have hb : (p.1 == k) = false := beq_eq_false_iff_ne.mpr hpk
      by_cases hrest : dictHas rest k
      · simp [dictSet, dictHas_cons, dictKeys, hb, hrest] at ih ⊢
        exact ih
      · simp [dictSet, dictHas_cons, dictKeys, hb,
          (by simpa using hrest : dictHas rest k = false)] at ih ⊢
        exact ih

theorem mem_dictKeys_of_dictGet? {K V : Type} [BEq K] [LawfulBEq K]
    {m : List (K × V)} {k : K} {v : V} (h : dictGet? m k = some v) : k ∈ dictKeys m := by
  induction m with
  | nil => simp [dictGet?] at h
  | cons p rest ih =>
    by_cases hp : p.1 = k
    · simp [dictKeys, hp]
    · have hb : (p.1 == k) = false := beq_eq_false_iff_ne.mpr hp
      rw [dictGet?_cons, hb] at h
      simp only [Bool.false_eq_true, if_false] at h
      simp [dictKeys] at ih ⊢
      exact Or.inr (ih h)

theorem dictHas_false_of_not_mem {K V : Type} [BEq K] [LawfulBEq K]
    {m : List (K × V)} {k : K} (h : dictHas m k = false) : k ∉ dictKeys m := by
  intro hk
  simp only [dictKeys] at hk
  rcases List.mem_map.1 hk with ⟨p, hp, hpk⟩
  have hany : dictHas m k = true := by
    unfold dictHas
    exact List.any_eq_true.2 ⟨p, hp, beq_iff_eq.mpr hpk⟩
  rw [h] at hany
  cases hany

end GH

namespace GraalReport

open GH

theorem get_nodes_loop_cons_ok {α : Type} (num : α → Int) (pg : PageOf α) (rest : List (Resp α))
    (node_type node_info states : String) (cur : Option String) (acc : List (Int × α)) :
    get_nodes_loop num ({ status := 200, body := { raw := "", page := some pg } } :: rest)
        node_type node_info states cur acc
      = if pg.pageInfo.hasNextPage then
          get_nodes_loop num rest node_type node_info states (some pg.pageInfo.endCursor)
            (mergePage num acc pg)
        else FetchOutcome.ok (mergePage num acc pg) := by
  simp [get_nodes_loop, run_query, mergePage]

theorem get_nodes_loop_okResponses {α : Type} (num : α → Int) :
    ∀ (pages : List (PageOf α)) (node_type node_info states : String) (cur : Option String)
      (acc : List (Int × α)),
      (pages.any fun p => !p.pageInfo.hasNextPage) = true →
      get_nodes_loop num (okResponses pages) node_type node_info states cur acc
        = FetchOutcome.ok ((takenPages pages).foldl (mergePage num) acc) := by
  intro pages
  induction pages with
  | nil =>
    intro nt ni st cur acc h
    simp at h
  | cons p rest ih =>
    intro nt ni st cur acc h
    have hstep : okResponses (p :: rest)
        = ({ status := 200, body := { raw := "", page := some p } } : Resp α) :: okResponses rest := rfl
    rw [hstep, get_nodes_loop_cons_ok]
    cases hn : p.pageInfo.hasNextPage with
    | true =>
      have hrest : (rest.any fun p => !p.pageInfo.hasNextPage) = true := by
        rw [List.any_cons, hn] at h
        simpa using h
      simp only [if_true]
      rw [ih nt ni st (some p.pageInfo.endCursor) (mergePage num acc p) hrest]
      simp [takenPages, hn]
    | false =>
      simp [takenPages, hn]

theorem dictGet?_foldl_dictSet {α : Type} (num : α → Int) :
    ∀ (l : List α) (m : List (Int × α)) (k : Int),
      dictGet? (l.foldl (fun m n => dictSet m (num n) n) m) k
        = match l.reverse.find? (fun n => num n == k) with
          | some n => some n
          | none => dictGet? m k := by
  intro l
  induction l with
  | nil => intro m k; simp
  | cons x xs ih =>
    intro m k
    rw [List.foldl_cons, ih, List.reverse_cons, List.find?_append]
    cases hfind : xs.reverse.find? (fun n => num n == k) with
    | some n => simp [Option.or]
    | none =>
      simp only [Option.or]
      rw [dictGet?_dictSet]
      by_cases hk : k = num x
      · have h1 : (k == num x) = true := beq_iff_eq.mpr hk
        have h2 : (num x == k) = true := beq_iff_eq.mpr hk.symm
        simp [List.find?, h1, h2]
      · have h1 : (k == num x) = false := beq_eq_false_iff_ne.mpr hk
        have h2 : (num x == k) = false := beq_eq_false_iff_ne.mpr (Ne.symm hk)
        simp [List.find?, h1, h2]

theorem foldl_mergePage_eq {α : Type} (num : α → Int) :
    ∀ (pages : List (PageOf α)) (m : List (Int × α)),
      pages.foldl (mergePage num) m
        = (concatNodes pages).foldl (fun m n => dictSet m (num n) n) m := by
  intro pages
  induction pages with
  | nil => intro m; simp [concatNodes]
  | cons p rest ih =>
    intro m
    rw [List.foldl_cons, ih]
    simp only [concatNodes, List.map_cons, List.flatten_cons, List.foldl_append]
    rfl

theorem dictKeys_foldl_nodup {α : Type} (num : α → Int) :
    ∀ (l : List α) (m : List (Int × α)), (dictKeys m).Nodup →
      (dictKeys (l.foldl (fun m n => dictSet m (num n) n) m)).Nodup := by
  intro l
  induction l with
  | nil => intro m h; simpa using h
  | cons x xs ih =>
    intro m h
    rw [List.foldl_cons]
    apply ih
    rw [dictKeys_dictSet]
    by_cases hh : dictHas m (num x)
    · simp [hh, h]
    · have hf : dictHas m (num x) = false := by simpa using hh
      simp only [hf, Bool.false_eq_true, if_false]
      rw [List.nodup_append]
      exact ⟨h, List.nodup_singleton _, by
        intro a ha hb
        simp at hb
        subst hb
        exact dictHas_false_of_not_mem hf ha⟩

theorem dictHas_foldl {α : Type} (num : α → Int) :
    ∀ (l : List α) (m : List (Int × α)) (k : Int),
      dictHas (l.foldl (fun m n => dictSet m (num n) n) m) k
        = ((l.any fun n => num n == k) || dictHas m k) := by
  intro l
  induction l with
  | nil => intro m k; simp
  | cons x xs ih =>
    intro m k
    rw [List.foldl_cons, ih, dictHas_dictSet, List.any_cons]
    by_cases hk : k = num x
    · have h1 : (k == num x) = true := beq_iff_eq.mpr hk
      have h2 : (num x == k) = true := beq_iff_eq.mpr hk.symm
      simp [h1, h2]
    · have h1 : (k == num x) = false := beq_eq_false_iff_ne.mpr hk
      have h2 : (num x == k) = false := beq_eq_false_iff_ne.mpr (Ne.symm hk)
      simp [h1, h2]

theorem find?_eq_head?_filter {α : Type} (p : α → Bool) :
    ∀ (l : List α), l.find? p = (l.filter p).head? := by
  intro l
  induction l with
  | nil => rfl
  | cons x xs ih =>
    cases hx : p x
    · rw [List.find?_cons_of_neg, List.filter_cons_of_neg, ih]
      · simp [hx]
      · simp [hx]
    · rw [List.find?_cons_of_pos, List.filter_cons_of_pos]
      · rfl
      · exact hx
      · exact hx

/-- C2: for every sequence of pages returned by the transport, the
paginator repeatedly fetches pages while the current page's `hasNextPage`
flag is true, advancing the cursor to `endCursor` (first conjunct), stops
at the first page whose `hasNextPage` is false with the keyed merge of all
fetched pages — `takenPages` — as the returned NodeSet (second conjunct)
whose keys are exactly the numbers occurring in the fetched pages (third
conjunct), and a single empty page with `hasNextPage` false yields an
empty NodeSet (fourth conjunct). -/
theorem claim_c2_pagination {α : Type} (num : α → Int) :
    (∀ (pg : PageOf α) (rest : List (Resp α)) (node_type node_info states : String)
       (cur : Option String) (acc : List (Int × α)),
       pg.pageInfo.hasNextPage = true →
       get_nodes_loop num ({ status := 200, body := { raw := "", page := some pg } } :: rest)
           node_type node_info states cur acc
         = get_nodes_loop num rest node_type node_info states (some pg.pageInfo.endCursor)
             (mergePage num acc pg))
    ∧ (∀ (pages : List (PageOf α)) (node_type node_info states : String),
       (pages.any fun p => !p.pageInfo.hasNextPage) = true →
       get_nodes_loop num (okResponses pages) node_type node_info states none []
         = FetchOutcome.ok ((takenPages pages).foldl (mergePage num) []))
    ∧ (∀ (pages : List (PageOf α)) (k : Int),
       dictHas ((takenPages pages).foldl (mergePage num) []) k = true
         ↔ ∃ p ∈ takenPages pages, ∃ n ∈ p.nodes, num n = k)
    ∧ (∀ (tc : Nat) (c : String) (node_type node_info states : String),
       get_nodes_loop num (okResponses [(⟨tc, ⟨false, c⟩, []⟩ : PageOf α)])
           node_type node_info states none []
         = FetchOutcome.ok []) := by
  refine ⟨?_, ?_, ?_, ?_⟩
  · intro pg rest nt ni st cur acc h
    rw [get_nodes_loop_cons_ok, h]
    simp
  · intro pages nt ni st h
    exact get_nodes_loop_okResponses num pages nt ni st none [] h
  · intro pages k
    rw [foldl_mergePage_eq, dictHas_foldl]
    simp [concatNodes, List.any_eq_true, List.mem_flatten, List.mem_map, beq_iff_eq, dictHas]
  · intro tc c nt ni st
    have hstep : okResponses [(⟨tc, ⟨false, c⟩, []⟩ : PageOf α)]
        = [({ status := 200, body := { raw := "", page := some ⟨tc, ⟨false, c⟩, []⟩ } } : Resp α)] :=
      rfl
    rw [hstep, get_nodes_loop_cons_ok]
    simp [mergePage]

/-- Three-page transcript used by the C2 witness. -/
def c2pages : List (PageOf Node1) :=
  [⟨3, ⟨true, "c1"⟩, [⟨1, "u1", "t1", 0, []⟩]⟩,
   ⟨3, ⟨true, "c2"⟩, [⟨2, "u2", "t2", 0, []⟩]⟩,
   ⟨3, ⟨false, ""⟩, [⟨3, "u3", "t3", 1, []⟩]⟩]

/-- Witness for C2 at a concrete `true, true, false` transcript: the fetch
returns the union of the three pages' nodes. -/
theorem claim_c2_pagination_witness :
    get_nodes_loop Node1.number (okResponses c2pages) "issue" "info" "OPEN" none []
      = FetchOutcome.ok
        [(1, ⟨1, "u1", "t1", 0, []⟩), (2, ⟨2, "u2", "t2", 0, []⟩),
         (3, ⟨3, "u3", "t3", 1, []⟩)] := by
  have h := (claim_c2_pagination Node1.number).2.1 c2pages "issue" "info" "OPEN" (by decide)
  rw [h]
  rfl

/-- C3: when the pages consumed by one fetch contain exactly two nodes
carrying the same number — `a` in an earlier position, `b` in a later one —
the resulting NodeSet maps that number to the later version `b` and
contains that number exactly once among its keys. -/
theorem claim_c3_later_page_wins {α : Type} (num : α → Int)
    (pages : List (PageOf α)) (node_type node_info states : String) (k : Int) (a b : α)
    (hstop : (pages.any fun p => !p.pageInfo.hasNextPage) = true)
    (hdup : (concatNodes (takenPages pages)).filter (fun n => num n == k) = [a, b]) :
    ∃ ns, get_nodes_loop num (okResponses pages) node_type node_info states none []
        = FetchOutcome.ok ns
      ∧ dictGet? ns k = some b
      ∧ (dictKeys ns).count k = 1 := by
  have hfind : (concatNodes (takenPages pages)).reverse.find? (fun n => num n == k)
      = some b := by
    rw [find?_eq_head?_filter, List.filter_reverse, hdup]
    rfl
  have hget : dictGet? ((concatNodes (takenPages pages)).foldl
      (fun m n => dictSet m (num n) n) []) k = some b := by
    rw [dictGet?_foldl_dictSet, hfind]
  refine ⟨(takenPages pages).foldl (mergePage num) [],
    get_nodes_loop_okResponses num pages node_type node_info states none [] hstop, ?_, ?_⟩
  · rw [foldl_mergePage_eq]
    exact hget
  · rw [foldl_mergePage_eq]
    have hnd := dictKeys_foldl_nodup num (concatNodes (takenPages pages)) []
      (by simp [dictKeys])
    exact List.count_eq_one_of_mem hnd (mem_dictKeys_of_dictGet? hget)

/-- Earlier version of node 7, used by the C3 witness. -/
def c3nodeA : Node1 := ⟨7, "uA", "old title", 0, []⟩

/-- Later version of node 7, used by the C3 witness. -/
def c3nodeB : Node1 := ⟨7, "uB", "new title", 0, []⟩

/-- Two-page transcript used by the C3 witness: node 7 appears in both
pages with different titles. -/
def c3pages : List (PageOf Node1) :=
  [⟨2, ⟨true, "c1"⟩, [c3nodeA]⟩, ⟨2, ⟨false, ""⟩, [c3nodeB]⟩]

/-- Witness for C3: on the concrete duplicate transcript, number 7 is
mapped to the later page's version and occurs once. -/
theorem claim_c3_later_page_wins_witness :
    ∃ ns, get_nodes_loop Node1.number (okResponses c3pages) "issue" "i" "OPEN" none []
        = FetchOutcome.ok ns
      ∧ dictGet? ns 7 = some c3nodeB
      ∧ (dictKeys ns).count 7 = 1 :=
  claim_c3_later_page_wins Node1.number c3pages "issue" "i" "OPEN" 7 c3nodeA c3nodeB
    (by decide) (by decide)

/-- C8: when the transport returns a non-success status or a response with
an expected field missing, the fetch fails fatally and returns no partial
NodeSet.  First conjunct: a non-200 status makes the fetch stop at once —
for every continuation of the transcript, so nothing is retried — with the
exception carrying the status code and the query document.  Second
conjunct: a missing expected field on a 200 response aborts the fetch with
the offending response body.  Third conjunct: in either situation no
NodeSet whatsoever is returned.  Fourth conjunct: `run_query` itself (the
logic shared by graal_report.py and unassigned_issues.py) surfaces the
status failure with the status code and query. -/
theorem claim_c8_fail_fast {α : Type} (num : α → Int) :
    (∀ (r : Resp α) (rest : List (Resp α)) (node_type node_info states : String)
       (cur : Option String) (acc : List (Int × α)),
       r.status ≠ 200 →
       get_nodes_loop num (r :: rest) node_type node_info states cur acc
         = FetchOutcome.badStatus r.status (get_open_nodes_query node_type node_info states cur))
  ∧ (∀ (r : Resp α) (rest : List (Resp α)) (node_type node_info states : String)
       (cur : Option String) (acc : List (Int × α)),
       r.status = 200 → r.body.page = none →
       get_nodes_loop num (r :: rest) node_type node_info states cur acc
         = FetchOutcome.shapeExit r.body.raw)
  ∧ (∀ (r : Resp α) (rest : List (Resp α)) (node_type node_info states : String)
       (cur : Option String) (acc ns : List (Int × α)),
       r.status ≠ 200 ∨ r.body.page = none →
       get_nodes_loop num (r :: rest) node_type node_info states cur acc ≠ FetchOutcome.ok ns)
  ∧ (∀ (r : Resp α) (query : String), r.status ≠ 200 →
       run_query r query = Except.error (r.status, query)) := by
  refine ⟨?_, ?_, ?_, ?_⟩
  · intro r rest nt ni st cur acc h
    simp [get_nodes_loop, run_query, h]
  · intro r rest nt ni st cur acc h hpage
    simp [get_nodes_loop, run_query, h, hpage]
  · intro r rest nt ni st cur acc ns h
    rcases h with h | h
    · simp [get_nodes_loop, run_query, h]
    · by_cases hs : r.status = 200
      · simp [get_nodes_loop, run_query, hs, h]
      · simp [get_nodes_loop, run_query, hs]
  · intro r query h
    simp [run_query, h]

/-- Witness for C8: a 403 response aborts with the status and query, and a
200 response with missing fields aborts with the response body; neither
call returns a NodeSet. -/
theorem claim_c8_fail_fast_witness :
    get_nodes_loop Node1.number [⟨403, ⟨"forbidden", none⟩⟩] "issue" "i" "OPEN" none []
      = FetchOutcome.badStatus 403 (get_open_nodes_query "issue" "i" "OPEN" none)
  ∧ get_nodes_loop Node1.number [⟨200, ⟨"\x7b\"errors\": []\x7d", none⟩⟩] "issue" "i" "OPEN" none []
      = FetchOutcome.shapeExit "\x7b\"errors\": []\x7d"
  ∧ get_nodes_loop Node1.number [⟨403, ⟨"forbidden", none⟩⟩] "issue" "i" "OPEN" none []
      ≠ FetchOutcome.ok [] :=
  ⟨(claim_c8_fail_fast Node1.number).1 ⟨403, ⟨"forbidden", none⟩⟩ [] "issue" "i" "OPEN" none []
      (by decide),
   (claim_c8_fail_fast Node1.number).2.1 ⟨200, ⟨"\x7b\"errors\": []\x7d", none⟩⟩ [] "issue" "i"
      "OPEN" none [] rfl rfl,
   (claim_c8_fail_fast Node1.number).2.2.1 ⟨403, ⟨"forbidden", none⟩⟩ [] "issue" "i" "OPEN" none
      [] [] (Or.inl (by decide))⟩

/-- Single-page transcript used by the C1 theorem. -/
def c1transcript : List (Resp Node1) :=
  [⟨200, ⟨"", some ⟨1, ⟨false, ""⟩, [⟨5, "u5", "t5", 0, []⟩]⟩⟩⟩]

set_option maxRecDepth 100000 in
/-- C1 (code bug): the first `get_nodes` call fetches and stores the
NodeSet under the key `node_type ++ node_info` (first two conjuncts).  A
second call with the identical `(node_type, node_info)` pair — given an
EMPTY transcript, so no fetch can possibly run — passes the membership
test `key in _cached_results` but then executes
`return _cached_results[node_type]`, whose key was never stored: it raises
`KeyError('issue')` instead of returning the stored NodeSet (third
conjunct). -/
theorem claim_c1_cache_hit_keyerror :
    (get_nodes Node1.number [] c1transcript "issue" _node_info1 "OPEN").1
      = FetchOutcome.ok [(5, ⟨5, "u5", "t5", 0, []⟩)]
  ∧ (get_nodes Node1.number [] c1transcript "issue" _node_info1 "OPEN").2
      = [("issue" ++ _node_info1, [(5, ⟨5, "u5", "t5", 0, []⟩)])]
  ∧ (get_nodes Node1.number
       (get_nodes Node1.number [] c1transcript "issue" _node_info1 "OPEN").2
       [] "issue" _node_info1 "OPEN").1
      = FetchOutcome.keyError "issue" := by
  refine ⟨by decide, by decide, by decide⟩

theorem last_oracle_comment_eq_foldl :
    ∀ (tl : List (Option CItem)) (acc : Option (String × Int)),
      last_oracle_comment tl acc = (qualifying tl).foldl retain acc := by
  intro tl
  induction tl with
  | nil => intro acc; rfl
  | cons item? rest ih =>
    intro acc
    cases item? with
    | none => simp [last_oracle_comment, qualifying, qualifying_item, List.filterMap_cons, ih]
    | some item =>
      cases hA : item.author with
      | none =>
        simp [last_oracle_comment, hA, ih, qualifying, qualifying_item, List.filterMap_cons]
      | some author =>
        cases hO : author.organization with
        | none =>
          simp [last_oracle_comment, hA, hO, ih, qualifying, qualifying_item,
            List.filterMap_cons]
        | some org =>
          have hq : qualifying (some item :: rest) = item :: qualifying rest := by
            simp [qualifying, qualifying_item, List.filterMap_cons, hA, hO]
          rw [hq, List.foldl_cons]
          cases acc with
          | none => simp [last_oracle_comment, hA, hO, retain, ih]
          | some p =>
            obtain ⟨u, t⟩ := p
            by_cases hlt : t < item.updatedAt
            · simp [last_oracle_comment, hA, hO, retain, hlt, ih]
            · simp [last_oracle_comment, hA, hO, retain, hlt, ih]

theorem foldl_retain_isSome :
    ∀ (l : List CItem) (p : String × Int), (l.foldl retain (some p)).isSome := by
  intro l
  induction l with
  | nil => intro p; rfl
  | cons x xs ih =>
    intro p
    rw [List.foldl_cons]
    obtain ⟨q, hq⟩ : ∃ q, retain (some p) x = some q := by
      obtain ⟨u, t⟩ := p
      by_cases h : t < x.updatedAt <;> simp [retain, h]
    rw [hq]
    exact ih q

theorem foldl_retain_none_iff (l : List CItem) :
    l.foldl retain none = none ↔ l = [] := by
  cases l with
  | nil => simp
  | cons x xs =>
    rw [List.foldl_cons]
    rw [show retain none x = some (x.url, x.updatedAt) from rfl]
    constructor
    · intro h
      have := foldl_retain_isSome xs (x.url, x.updatedAt)
      rw [h] at this
      cases this
    · intro h
      cases h

theorem foldl_retain_mono :
    ∀ (l : List CItem) (u : String) (t : Int) (u' : String) (t' : Int),
      l.foldl retain (some (u, t)) = some (u', t') → t ≤ t' := by
  intro l
  induction l with
  | nil =>
    intro u t u' t' h
    rw [List.foldl_nil] at h
    obtain ⟨rfl, rfl⟩ : u = u' ∧ t = t' := by simpa using h
    exact le_refl t
  | cons x xs ih =>
    intro u t u' t' h
    rw [List.foldl_cons] at h
    by_cases hlt : t < x.updatedAt
    · have hx := ih x.url x.updatedAt u' t' (by simpa [retain, hlt] using h)
      omega
    · exact ih u t u' t' (by simpa [retain, hlt] using h)

theorem foldl_retain_bound :
    ∀ (l : List CItem) (acc : Option (String × Int)) (u' : String) (t' : Int),
      l.foldl retain acc = some (u', t') → ∀ j ∈ l, j.updatedAt ≤ t' := by
  intro l
  induction l with
  | nil =>
    intro acc u' t' h j hj
    cases hj
  | cons x xs ih =>
    intro acc u' t' h j hj
    rw [List.foldl_cons] at h
    rcases List.mem_cons.1 hj with rfl | hj'
    · obtain ⟨u0, t0, hacc, hxt⟩ : ∃ u0 t0, retain acc j = some (u0, t0) ∧ j.updatedAt ≤ t0 := by
        cases acc with
        | none => exact ⟨j.url, j.updatedAt, rfl, le_refl _⟩
        | some p =>
          obtain ⟨u, t⟩ := p
          by_cases hlt : t < j.updatedAt
          · exact ⟨j.url, j.updatedAt, by simp [retain, hlt], le_refl _⟩
          · exact ⟨u, t, by simp [retain, hlt], by omega⟩
      rw [hacc] at h
      exact le_trans hxt (foldl_retain_mono xs u0 t0 u' t' h)
    · exact ih (retain acc x) u' t' h j hj'

theorem foldl_retain_attained :
    ∀ (l : List CItem) (acc : Option (String × Int)) (u' : String) (t' : Int),
      l.foldl retain acc = some (u', t') →
      acc = some (u', t') ∨ ∃ j ∈ l, j.url = u' ∧ j.updatedAt = t' := by
  intro l
  induction l with
  | nil =>
    intro acc u' t' h
    rw [List.foldl_nil] at h
    exact Or.inl h
  | cons x xs ih =>
    intro acc u' t' h
    rw [List.foldl_cons] at h
    rcases ih (retain acc x) u' t' h with hr | ⟨j, hj, hju, hjt⟩
    · cases acc with
      | none =>
        right
        refine ⟨x, List.mem_cons_self x xs, ?_, ?_⟩
        · exact congrArg (fun o => (o.getD ("", 0)).1) hr
        · exact congrArg (fun o => (o.getD ("", 0)).2) hr
      | some p =>
        obtain ⟨u, t⟩ := p
        by_cases hlt : t < x.updatedAt
        · right
          have hr' : some (x.url, x.updatedAt) = some (u', t') := by
            simpa [retain, hlt] using hr
          refine ⟨x, List.mem_cons_self x xs, ?_, ?_⟩
          · exact congrArg (fun o => (o.getD ("", 0)).1) hr'
          · exact congrArg (fun o => (o.getD ("", 0)).2) hr'
        · left
          simpa [retain, hlt] using hr
    · exact Or.inr ⟨j, List.mem_cons_of_mem x hj, hju, hjt⟩

theorem foldl_retain_keep :
    ∀ (l : List CItem) (u : String) (t : Int),
      (∀ j ∈ l, j.updatedAt ≤ t) → l.foldl retain (some (u, t)) = some (u, t) := by
  intro l
  induction l with
  | nil => intro u t _; rfl
  | cons x xs ih =>
    intro u t h
    rw [List.foldl_cons]
    have hx : ¬ t < x.updatedAt := by
      have := h x (List.mem_cons_self x xs)
      omega
    rw [show retain (some (u, t)) x = some (u, t) from by simp [retain, hx]]
    exact ih u t (fun j hj => h j (List.mem_cons_of_mem x hj))

/-- C5: the per-node staleness scan depends only on the qualifying
entries — truthy timeline items whose author is a member of the oracle
organization (first conjunct); it yields nothing exactly when no
qualifying entry exists (second conjunct); and the pair it retains comes
from a qualifying entry whose update timestamp is greatest among all
qualifying entries (third conjunct; on ties some tied entry is kept). -/
theorem claim_c5_qualifying_max (tl : List (Option CItem)) :
    (last_oracle_comment tl none = (qualifying tl).foldl retain none)
  ∧ (last_oracle_comment tl none = none ↔ qualifying tl = [])
  ∧ (∀ u t, last_oracle_comment tl none = some (u, t) →
      (∃ it ∈ qualifying tl, it.url = u ∧ it.updatedAt = t)
      ∧ ∀ j ∈ qualifying tl, j.updatedAt ≤ t) := by
  refine ⟨last_oracle_comment_eq_foldl tl none, ?_, ?_⟩
  · rw [last_oracle_comment_eq_foldl]
    exact foldl_retain_none_iff _
  · intro u t h
    rw [last_oracle_comment_eq_foldl] at h
    refine ⟨?_, foldl_retain_bound _ _ _ _ h⟩
    rcases foldl_retain_attained _ _ _ _ h with h' | h'
    · cases h'
    · exact h'

/-- Timeline used by the C5 witness: one qualifying comment, one
non-comment entry, one comment by an author outside the organization. -/
def c5timeline : List (Option CItem) :=
  [some ⟨100, "cu1", some ⟨"alice", some "oracle"⟩⟩,
   none,
   some ⟨50, "cu2", some ⟨"bob", none⟩⟩]

/-- Witness for C5: on the concrete timeline the scan retains the
qualifying comment `cu1` at timestamp 100, which bounds every qualifying
entry. -/
theorem claim_c5_qualifying_max_witness :
    (∃ it ∈ qualifying c5timeline, it.url = "cu1" ∧ it.updatedAt = 100)
    ∧ ∀ j ∈ qualifying c5timeline, j.updatedAt ≤ 100 :=
  (claim_c5_qualifying_max c5timeline).2.2 "cu1" 100 (by decide)

/-- C10: the staleness tie-break is deterministic — if `it` is a
qualifying entry preceded only by strictly older entries and followed only
by entries no newer than it (in particular, entries tied with it), the
scan retains exactly `it`: a later entry replaces the retained one only
when its timestamp is strictly greater. -/
theorem claim_c10_tie_first_wins (tl : List (Option CItem)) (pre : List CItem) (it : CItem)
    (post : List CItem)
    (hsplit : qualifying tl = pre ++ it :: post)
    (hpre : ∀ j ∈ pre, j.updatedAt < it.updatedAt)
    (hpost : ∀ j ∈ post, j.updatedAt ≤ it.updatedAt) :
    last_oracle_comment tl none = some (it.url, it.updatedAt) := by
  rw [last_oracle_comment_eq_foldl, hsplit, List.foldl_append]
  cases hacc : pre.foldl retain none with
  | none =>
    rw [List.foldl_cons]
    rw [show retain none it = some (it.url, it.updatedAt) from rfl]
    exact foldl_retain_keep post it.url it.updatedAt hpost
  | some p =>
    obtain ⟨u0, t0⟩ := p
    rcases foldl_retain_attained pre none u0 t0 hacc with h' | ⟨j, hj, hju, hjt⟩
    · cases h'
    · have ht0 : t0 < it.updatedAt := hjt ▸ hpre j hj
      rw [List.foldl_cons]
      rw [show retain (some (u0, t0)) it = some (it.url, it.updatedAt) from by
        simp [retain, ht0]]
      exact foldl_retain_keep post it.url it.updatedAt hpost

/-- Timeline used by the C10 witness: two qualifying comments with the
same timestamp 50. -/
def c10timeline : List (Option CItem) :=
  [some ⟨50, "first", some ⟨"a", some "oracle"⟩⟩,
   some ⟨50, "second", some ⟨"b", some "oracle"⟩⟩]

/-- Witness for C10: with two qualifying comments tied at timestamp 50,
the scan keeps the one appearing first. -/
theorem claim_c10_tie_first_wins_witness :
    last_oracle_comment c10timeline none = some ("first", 50) :=
  claim_c10_tie_first_wins c10timeline [] ⟨50, "first", some ⟨"a", some "oracle"⟩⟩
    [⟨50, "second", some ⟨"b", some "oracle"⟩⟩]
    (by decide)
    (by intro j hj; cases hj)
    (by
      intro j hj
      rcases List.mem_singleton.1 hj with rfl
      decide)

/-- C6: the per-node staleness report line exists exactly when either no
qualifying authorized comment exists — distinctly labeled — or the
whole-day delta between now and the retained comment's timestamp exceeds
30 days, in which case the day count and the comment's URL are reported; a
node whose retained comment is within the threshold produces no line. -/
theorem no_recent_activity_line_of_none (now : Int) (node : Node1)
    (h : last_oracle_comment node.timelineItems none = none) :
    no_recent_activity_line now node
      = some (ReportLine.noOracleComments node.url node.title) := by
  unfold no_recent_activity_line
  rw [h]

theorem no_recent_activity_line_of_some (now : Int) (node : Node1) (u : String) (t : Int)
    (h : last_oracle_comment node.timelineItems none = some (u, t)) :
    no_recent_activity_line now node
      = if 30 < Int.fdiv (now - t) 86400 then
          some (ReportLine.stale node.url node.title (Int.fdiv (now - t) 86400) u)
        else none := by
  unfold no_recent_activity_line
  rw [h]

/-- C6: the per-node staleness report line exists exactly when either no
qualifying authorized comment exists — distinctly labeled — or the
whole-day delta between now and the retained comment's timestamp exceeds
30 days, in which case the day count and the comment's URL are reported; a
node whose retained comment is within the threshold produces no line. -/
theorem claim_c6_stale_report (now : Int) (node : Node1) :
    (no_recent_activity_line now node = some (ReportLine.noOracleComments node.url node.title)
       ↔ last_oracle_comment node.timelineItems none = none)
  ∧ (∀ d curl, no_recent_activity_line now node
        = some (ReportLine.stale node.url node.title d curl)
       ↔ ∃ t, last_oracle_comment node.timelineItems none = some (curl, t)
           ∧ d = Int.fdiv (now - t) 86400 ∧ 30 < d)
  ∧ (no_recent_activity_line now node = none
       ↔ ∃ u t, last_oracle_comment node.timelineItems none = some (u, t)
           ∧ Int.fdiv (now - t) 86400 ≤ 30) := by
  cases hloc : last_oracle_comment node.timelineItems none with
  | none =>
    rw [no_recent_activity_line_of_none now node hloc]
    refine ⟨by simp [hloc], ?_, by simp [hloc]⟩
    intro d curl
    simp [hloc]
  | some p =>
    obtain ⟨u, t⟩ := p
    rw [no_recent_activity_line_of_some now node u t hloc]
    by_cases hd : 30 < Int.fdiv (now - t) 86400
    · rw [if_pos hd]
      refine ⟨by simp [hloc], ?_, ?_⟩
      · intro d curl
        constructor
        · intro h
          injection Option.some.inj h with e1 e2 e3 e4
          exact ⟨t, by rw [e4], e3.symm, e3 ▸ hd⟩
        · rintro ⟨t', ht', rfl, h30⟩
          obtain ⟨h1, h2⟩ := Prod.mk.inj (Option.some.inj ht')
          rw [← h1, ← h2]
      · constructor
        · intro h
          exact Option.noConfusion h
        · rintro ⟨u', t', ht', h30⟩
          obtain ⟨h1, h2⟩ := Prod.mk.inj (Option.some.inj ht')
          rw [← h2] at h30
          exact absurd h30 (not_le.mpr hd)
    · rw [if_neg hd]
      refine ⟨?_, ?_, ?_⟩
      · constructor
        · intro h
          exact Option.noConfusion h
        · intro h
          exact Option.noConfusion h
      · intro d curl
        constructor
        · intro h
          exact Option.noConfusion h
        · rintro ⟨t', ht', rfl, h30⟩
          obtain ⟨h1, h2⟩ := Prod.mk.inj (Option.some.inj ht')
          rw [← h2] at h30
          exact absurd h30 hd
      · constructor
        · intro _
          exact ⟨u, t, rfl, not_lt.mp hd⟩
        · intro _
          rfl

theorem bucketOf_eq_some {n : Node2} {y : Int} {k : String} :
    bucketOf n = some (y, k)
      ↔ ∃ author, n.author = some author ∧ n.createdAt.year = y
          ∧ (if author.organizations.contains "oracle" then "oracle" else "other") = k := by
  cases hA : n.author with
  | none => simp [bucketOf, hA]
  | some author => simp [bucketOf, hA]

theorem lookupCount_step_none (acc : List (Int × List (String × Nat))) (n : Node2)
    (y : Int) (k : String) (h : n.author = none) :
    lookupCount (opened_per_year_step acc n) y k = lookupCount acc y k := by
  simp [opened_per_year_step, h]

theorem lookupCount_step_hit (acc : List (Int × List (String × Nat))) (n : Node2)
    (author : OrgAuthor) (hA : n.author = some author) :
    lookupCount (opened_per_year_step acc n) n.createdAt.year
        (if author.organizations.contains "oracle" then "oracle" else "other")
      = lookupCount acc n.createdAt.year
          (if author.organizations.contains "oracle" then "oracle" else "other") + 1 := by
  unfold opened_per_year_step
  rw [hA]
  unfold lookupCount lookupLabel
  rw [dictGet?_dictSet]
  rw [if_pos (beq_self_eq_true _)]
  simp only [Option.getD_some]
  rw [dictGet?_dictSet]
  rw [if_pos (beq_self_eq_true _)]
  simp

theorem lookupCount_step_missY (acc : List (Int × List (String × Nat))) (n : Node2)
    (y : Int) (k : String) (author : OrgAuthor) (hA : n.author = some author)
    (hy : y ≠ n.createdAt.year) :
    lookupCount (opened_per_year_step acc n) y k = lookupCount acc y k := by
  unfold opened_per_year_step
  rw [hA]
  unfold lookupCount lookupLabel
  rw [dictGet?_dictSet]
  rw [if_neg (by simp only [beq_iff_eq]; exact hy)]

theorem lookupCount_step_missK (acc : List (Int × List (String × Nat))) (n : Node2)
    (y : Int) (k : String) (author : OrgAuthor) (hA : n.author = some author)
    (hy : y = n.createdAt.year)
    (hk : k ≠ (if author.organizations.contains "oracle" then "oracle" else "other")) :
    lookupCount (opened_per_year_step acc n) y k = lookupCount acc y k := by
  subst hy
  unfold opened_per_year_step
  rw [hA]
  unfold lookupCount lookupLabel
  rw [dictGet?_dictSet]
  rw [if_pos (beq_self_eq_true _)]
  simp only [Option.getD_some]
  rw [dictGet?_dictSet]
  rw [if_neg (by simp only [beq_iff_eq]; exact hk)]

theorem lookupCount_foldl (nodes : List Node2) :
    ∀ (acc : List (Int × List (String × Nat))) (y : Int) (k : String),
      lookupCount (nodes.foldl opened_per_year_step acc) y k
        = lookupCount acc y k + nodes.countP (fun n => decide (bucketOf n = some (y, k))) := by
  induction nodes with
  | nil => intro acc y k; simp
  | cons n rest ih =>
    intro acc y k
    rw [List.foldl_cons, ih, List.countP_cons]
    by_cases hb : bucketOf n = some (y, k)
    · obtain ⟨author, hA, hy, hk⟩ := bucketOf_eq_some.1 hb
      subst hy
      subst hk
      rw [lookupCount_step_hit acc n author hA]
      simp only [decide_eq_true_eq]
      rw [if_pos hb]
      omega
    · have hstep : lookupCount (opened_per_year_step acc n) y k = lookupCount acc y k := by
        cases hA : n.author with
        | none => exact lookupCount_step_none acc n y k hA
        | some author =>
          by_cases hy : y = n.createdAt.year
          · have hk : k ≠ (if author.organizations.contains "oracle" then "oracle"
                else "other") := by
              intro he
              exact hb (bucketOf_eq_some.2 ⟨author, hA, hy.symm, he.symm⟩)
            exact lookupCount_step_missK acc n y k author hA hy hk
          · exact lookupCount_step_missY acc n y k author hA hy
      rw [hstep]
      simp only [decide_eq_true_eq]
      rw [if_neg hb]
      omega

/-- Nodes used by the C7 witness equation: three nodes created in 2021
(two by oracle members, one by an outsider) and one node created in 2022
(outsider). -/
def c7nodes : List (Int × Node2) :=
  [(1, ⟨1, some ⟨"a", ["oracle"]⟩, ⟨2021⟩, none⟩),
   (2, ⟨2, some ⟨"b", ["acme", "oracle"]⟩, ⟨2021⟩, none⟩),
   (3, ⟨3, some ⟨"c", ["acme"]⟩, ⟨2021⟩, none⟩),
   (4, ⟨4, some ⟨"d", []⟩, ⟨2022⟩, none⟩)]

/-- C7: the yearly aggregator counts, under each year and affiliation
label, exactly the nodes with a non-null author whose creation year and
label match (first conjunct); authorless nodes fall in no bucket (second
conjunct); and the spec's concrete example — three 2021 nodes (two
oracle-affiliated, one not) plus one unaffiliated 2022 node — yields
`{2021: {oracle: 2, other: 1}, 2022: {other: 1}}` (third conjunct). -/
theorem claim_c7_yearly_buckets :
    (∀ (nodes : List (Int × Node2)) (y : Int) (k : String),
       lookupCount (show_nodes_opened_per_year nodes) y k
         = (nodes.map (fun p => p.2)).countP (fun n => decide (bucketOf n = some (y, k))))
  ∧ (∀ n : Node2, n.author = none → bucketOf n = none)
  ∧ show_nodes_opened_per_year c7nodes
      = [(2021, [("oracle", 2), ("other", 1)]), (2022, [("other", 1)])] := by
  refine ⟨?_, ?_, by decide⟩
  · intro nodes y k
    unfold show_nodes_opened_per_year
    rw [lookupCount_foldl]
    simp [lookupCount, lookupLabel, dictGet?]
  · intro n h
    simp [bucketOf, h]

/-- Witness for C7: an authorless node falls in no bucket, and on the
concrete four-node example the 2021 oracle bucket counts 2. -/
theorem claim_c7_yearly_buckets_witness :
    bucketOf ⟨9, none, ⟨2020⟩, none⟩ = none
    ∧ lookupCount (show_nodes_opened_per_year c7nodes) 2021 "oracle" = 2 :=
  ⟨claim_c7_yearly_buckets.2.1 ⟨9, none, ⟨2020⟩, none⟩ rfl,
   by
     rw [claim_c7_yearly_buckets.1 c7nodes 2021 "oracle"]
     decide⟩

/-- C9: the affiliation decision sees only the organizations the query
returns, and `_node_info2` requests `organizations(first:5)` (first
conjunct, exhibiting the query text).  If the transport hands back the
first five organizations of an author and `oracle` is not among them, the
bucket label is `other` (second conjunct) — even when the author belongs
to `oracle` beyond the first five — and the aggregator counts the node
under `other` (third conjunct). -/
theorem claim_c9_first_five_orgs :
    (∃ a b : String, _node_info2 = a ++ "organizations(first:5)" ++ b)
  ∧ (∀ (login : String) (full : List String) (yr nb : Int) (closed : Option CreatedAt),
       "oracle" ∉ full.take 5 →
       bucketOf ⟨nb, some ⟨login, full.take 5⟩, ⟨yr⟩, closed⟩ = some (yr, "other"))
  ∧ (∀ (idx : Int) (login : String) (full : List String) (yr nb : Int)
       (closed : Option CreatedAt),
       "oracle" ∉ full.take 5 →
       lookupCount
         (show_nodes_opened_per_year [(idx, ⟨nb, some ⟨login, full.take 5⟩, ⟨yr⟩, closed⟩)])
         yr "other" = 1) := by
  refine ⟨?_, ?_, ?_⟩
  · exact ⟨"\nnumber\nauthor \x7b\n  ... on User \x7b\n    login\n    ",
      " \x7b\n      edges \x7b\n        node \x7b\n          login\n        \x7d\n      \x7d\n    \x7d\n  \x7d\n\x7d\ncreatedAt\nclosedAt\n",
      rfl⟩
  · intro login full yr nb closed h
    have hc : (full.take 5).contains "oracle" = false := by simpa using h
    simp [bucketOf, hc, h]
  · intro idx login full yr nb closed h
    have hc : (full.take 5).contains "oracle" = false := by simpa using h
    unfold show_nodes_opened_per_year
    rw [show ([(idx, (⟨nb, some ⟨login, full.take 5⟩, ⟨yr⟩, closed⟩ : Node2))].map
      (fun p => p.2)) = [⟨nb, some ⟨login, full.take 5⟩, ⟨yr⟩, closed⟩] from rfl]
    rw [List.foldl_cons, List.foldl_nil]
    have hb : bucketOf ⟨nb, some ⟨login, full.take 5⟩, ⟨yr⟩, closed⟩ = some (yr, "other") := by
      simp [bucketOf, hc, h]
    obtain ⟨author, hA, hy, hk⟩ := bucketOf_eq_some.1 hb
    rw [← hy, ← hk]
    rw [lookupCount_step_hit [] _ author hA]
    simp [lookupCount, lookupLabel, dictGet?]

/-- Witness for C9: with six organizations of which `oracle` is the sixth,
the first-five truncation makes the node count under `other`. -/
theorem claim_c9_first_five_orgs_witness :
    bucketOf ⟨1, some ⟨"alice", (["a", "b", "c", "d", "e", "oracle"].take 5)⟩, ⟨2021⟩, none⟩
        = some (2021, "other")
    ∧ lookupCount
        (show_nodes_opened_per_year
          [(1, ⟨1, some ⟨"alice", (["a", "b", "c", "d", "e", "oracle"].take 5)⟩, ⟨2021⟩, none⟩)])
        2021 "other" = 1 :=
  ⟨claim_c9_first_five_orgs.2.1 "alice" ["a", "b", "c", "d", "e", "oracle"] 2021 1 none
      (by decide),
   claim_c9_first_five_orgs.2.2 1 "alice" ["a", "b", "c", "d", "e", "oracle"] 2021 1 none
      (by decide)⟩

end GraalReport

/-- C4 (counterexample): the claim's ordering — "ordered by number
descending" — fails for `show_unassigned_nodes` of `unassigned_issues.py`,
whose `sorted(nodes.items())` call has no `reverse=True`: on a NodeSet of
two unassigned nodes numbered 1 and 2, the emitted sequence is `[1, 2]`
(ascending), which is not sorted descending. -/
theorem claim_c4_counterexample :
    ((UnassignedIssues.show_unassigned_nodes
        [(1, ⟨1, "u1", "OPEN", "t1", 0⟩), (2, ⟨2, "u2", "OPEN", "t2", 0⟩)]).1.map
        (fun n => n.number) = [1, 2])
  ∧ ¬ List.Sorted (fun a b : Int => b ≤ a)
      ((UnassignedIssues.show_unassigned_nodes
        [(1, ⟨1, "u1", "OPEN", "t1", 0⟩), (2, ⟨2, "u2", "OPEN", "t2", 0⟩)]).1.map
        (fun n => n.number)) := by
  have h1 : (UnassignedIssues.show_unassigned_nodes
      [(1, ⟨1, "u1", "OPEN", "t1", 0⟩), (2, ⟨2, "u2", "OPEN", "t2", 0⟩)]).1.map
      (fun n => n.number) = [1, 2] := rfl
  refine ⟨h1, ?_⟩
  rw [h1]
  decide

/-- C4 (amended): both unassigned classifiers output exactly the nodes
with zero assignees and report a total equal to their number, and an empty
NodeSet yields an empty sequence and count zero; `graal_report.py`'s
classifier orders by number descending, while `unassigned_issues.py`'s
orders by number ASCENDING. -/
theorem claim_c4_amended :
    (∀ (ns : List (Int × GraalReport.Node1)) (n : GraalReport.Node1),
       n ∈ (GraalReport.show_unassigned_nodes ns).1
         ↔ (∃ k, (k, n) ∈ ns) ∧ n.assigneesTotalCount = 0)
  ∧ (∀ ns : List (Int × GraalReport.Node1), (∀ p ∈ ns, p.2.number = p.1) →
       List.Sorted (fun a b : GraalReport.Node1 => b.number ≤ a.number)
         (GraalReport.show_unassigned_nodes ns).1)
  ∧ (∀ ns : List (Int × GraalReport.Node1),
       (GraalReport.show_unassigned_nodes ns).2
         = ns.countP (fun p => p.2.assigneesTotalCount == 0))
  ∧ GraalReport.show_unassigned_nodes [] = ([], 0)
  ∧ (∀ (ns : List (Int × UnassignedIssues.UNode)) (n : UnassignedIssues.UNode),
       n ∈ (UnassignedIssues.show_unassigned_nodes ns).1
         ↔ (∃ k, (k, n) ∈ ns) ∧ n.assigneesTotalCount = 0)
  ∧ (∀ ns : List (Int × UnassignedIssues.UNode), (∀ p ∈ ns, p.2.number = p.1) →
       List.Sorted (fun a b : UnassignedIssues.UNode => a.number ≤ b.number)
         (UnassignedIssues.show_unassigned_nodes ns).1)
  ∧ (∀ ns : List (Int × UnassignedIssues.UNode),
       (UnassignedIssues.show_unassigned_nodes ns).2
         = ns.countP (fun p => p.2.assigneesTotalCount == 0))
  ∧ UnassignedIssues.show_unassigned_nodes [] = ([], 0) := by
  refine ⟨?_, ?_, ?_, rfl, ?_, ?_, ?_, rfl⟩
  · intro ns n
    show n ∈ ((List.insertionSort (fun a b : Int × GraalReport.Node1 => b.1 ≤ a.1) ns).filter
        (fun p => p.2.assigneesTotalCount == 0)).map (fun p => p.2)
      ↔ (∃ k, (k, n) ∈ ns) ∧ n.assigneesTotalCount = 0
    rw [List.mem_map]
    constructor
    · rintro ⟨p, hp, rfl⟩
      rw [List.mem_filter] at hp
      exact ⟨⟨p.1, (List.perm_insertionSort _ ns).mem_iff.1 hp.1⟩, by simpa using hp.2⟩
    · rintro ⟨⟨k, hk⟩, hcnt⟩
      refine ⟨(k, n), ?_, rfl⟩
      rw [List.mem_filter]
      exact ⟨(List.perm_insertionSort _ ns).mem_iff.2 hk, by simpa using hcnt⟩
  · intro ns hWF
    show List.Sorted (fun a b : GraalReport.Node1 => b.number ≤ a.number)
      (((List.insertionSort (fun a b : Int × GraalReport.Node1 => b.1 ≤ a.1) ns).filter
        (fun p => p.2.assigneesTotalCount == 0)).map (fun p => p.2))
    haveI : IsTotal (Int × GraalReport.Node1) (fun a b => b.1 ≤ a.1) :=
      ⟨fun a b => le_total b.1 a.1⟩
    haveI : IsTrans (Int × GraalReport.Node1) (fun a b => b.1 ≤ a.1) :=
      ⟨fun a b c h1 h2 => le_trans h2 h1⟩
    have hs := List.sorted_insertionSort (fun a b : Int × GraalReport.Node1 => b.1 ≤ a.1) ns
    have hsf := List.Pairwise.sublist
      (@List.filter_sublist (Int × GraalReport.Node1) (fun p => p.2.assigneesTotalCount == 0)
        (List.insertionSort (fun a b : Int × GraalReport.Node1 => b.1 ≤ a.1) ns)) hs
    have hWF' : ∀ p ∈ (List.insertionSort (fun a b : Int × GraalReport.Node1 => b.1 ≤ a.1)
        ns).filter (fun p => p.2.assigneesTotalCount == 0), p.2.number = p.1 := by
      intro p hp
      exact hWF p ((List.perm_insertionSort _ ns).mem_iff.1 (List.mem_filter.1 hp).1)
    have hsf' : List.Pairwise (fun a b : Int × GraalReport.Node1 => b.2.number ≤ a.2.number)
        ((List.insertionSort (fun a b : Int × GraalReport.Node1 => b.1 ≤ a.1) ns).filter
          (fun p => p.2.assigneesTotalCount == 0)) :=
      hsf.imp_of_mem
        (fun {a b} ha hb hr => by
          rw [← hWF' a ha, ← hWF' b hb] at hr
          exact hr)
    refine List.Pairwise.map (fun p => p.2) ?_ hsf'
    exact fun a b h => h
  · intro ns
    show (((List.insertionSort (fun a b : Int × GraalReport.Node1 => b.1 ≤ a.1) ns).filter
        (fun p => p.2.assigneesTotalCount == 0)).map (fun p => p.2)).length
      = ns.countP (fun p => p.2.assigneesTotalCount == 0)
    rw [List.length_map, ← List.countP_eq_length_filter]
    exact (List.perm_insertionSort (fun a b : Int × GraalReport.Node1 => b.1 ≤ a.1)
      ns).countP_eq (fun p => p.2.assigneesTotalCount == 0)
  · intro ns n
    show n ∈ ((List.insertionSort (fun a b : Int × UnassignedIssues.UNode => a.1 ≤ b.1)
        ns).filter (fun p => p.2.assigneesTotalCount == 0)).map (fun p => p.2)
      ↔ (∃ k, (k, n) ∈ ns) ∧ n.assigneesTotalCount = 0
    rw [List.mem_map]
    constructor
    · rintro ⟨p, hp, rfl⟩
      rw [List.mem_filter] at hp
      exact ⟨⟨p.1, (List.perm_insertionSort _ ns).mem_iff.1 hp.1⟩, by simpa using hp.2⟩
    · rintro ⟨⟨k, hk⟩, hcnt⟩
      refine ⟨(k, n), ?_, rfl⟩
      rw [List.mem_filter]
      exact ⟨(List.perm_insertionSort _ ns).mem_iff.2 hk, by simpa using hcnt⟩
  · intro ns hWF
    show List.Sorted (fun a b : UnassignedIssues.UNode => a.number ≤ b.number)
      (((List.insertionSort (fun a b : Int × UnassignedIssues.UNode => a.1 ≤ b.1) ns).filter
        (fun p => p.2.assigneesTotalCount == 0)).map (fun p => p.2))
    haveI : IsTotal (Int × UnassignedIssues.UNode) (fun a b => a.1 ≤ b.1) :=
      ⟨fun a b => le_total a.1 b.1⟩
    haveI : IsTrans (Int × UnassignedIssues.UNode) (fun a b => a.1 ≤ b.1) :=
      ⟨fun a b c h1 h2 => le_trans h1 h2⟩
    have hs := List.sorted_insertionSort (fun a b : Int × UnassignedIssues.UNode => a.1 ≤ b.1) ns
    have hsf := List.Pairwise.sublist
      (@List.filter_sublist (Int × UnassignedIssues.UNode) (fun p => p.2.assigneesTotalCount == 0)
        (List.insertionSort (fun a b : Int × UnassignedIssues.UNode => a.1 ≤ b.1) ns)) hs
    have hWF' : ∀ p ∈ (List.insertionSort (fun a b : Int × UnassignedIssues.UNode => a.1 ≤ b.1)
        ns).filter (fun p => p.2.assigneesTotalCount == 0), p.2.number = p.1 := by
      intro p hp
      exact hWF p ((List.perm_insertionSort _ ns).mem_iff.1 (List.mem_filter.1 hp).1)
    have hsf' : List.Pairwise (fun a b : Int × UnassignedIssues.UNode => a.2.number ≤ b.2.number)
        ((List.insertionSort (fun a b : Int × UnassignedIssues.UNode => a.1 ≤ b.1) ns).filter
          (fun p => p.2.assigneesTotalCount == 0)) :=
      hsf.imp_of_mem
        (fun {a b} ha hb hr => by
          rw [← hWF' a ha, ← hWF' b hb] at hr
          exact hr)
    refine List.Pairwise.map (fun p => p.2) ?_ hsf'
    exact fun a b h => h
  · intro ns
    show (((List.insertionSort (fun a b : Int × UnassignedIssues.UNode => a.1 ≤ b.1) ns).filter
        (fun p => p.2.assigneesTotalCount == 0)).map (fun p => p.2)).length
      = ns.countP (fun p => p.2.assigneesTotalCount == 0)
    rw [List.length_map, ← List.countP_eq_length_filter]
    exact (List.perm_insertionSort (fun a b : Int × UnassignedIssues.UNode => a.1 ≤ b.1)
      ns).countP_eq (fun p => p.2.assigneesTotalCount == 0)

/-- Witness for the amended C4: on concrete two-node NodeSets the graal
output is sorted descending, the unassigned_issues output is sorted
ascending, and the reported total counts only zero-assignee nodes. -/
theorem claim_c4_amended_witness :
    List.Sorted (fun a b : GraalReport.Node1 => b.number ≤ a.number)
      (GraalReport.show_unassigned_nodes
        [(1, ⟨1, "g1", "t1", 0, []⟩), (2, ⟨2, "g2", "t2", 0, []⟩)]).1
  ∧ List.Sorted (fun a b : UnassignedIssues.UNode => a.number ≤ b.number)
      (UnassignedIssues.show_unassigned_nodes
        [(2, ⟨2, "u2", "OPEN", "t2", 0⟩), (1, ⟨1, "u1", "OPEN", "t1", 0⟩)]).1
  ∧ (GraalReport.show_unassigned_nodes
      [(1, ⟨1, "g1", "t1", 0, []⟩), (2, ⟨2, "g2", "t2", 1, []⟩)]).2 = 1 :=
  ⟨claim_c4_amended.2.1 [(1, ⟨1, "g1", "t1", 0, []⟩), (2, ⟨2, "g2", "t2", 0, []⟩)] (by decide),
   claim_c4_amended.2.2.2.2.2.1
     [(2, ⟨2, "u2", "OPEN", "t2", 0⟩), (1, ⟨1, "u1", "OPEN", "t1", 0⟩)] (by decide),
   by
     rw [claim_c4_amended.2.2.1 [(1, ⟨1, "g1", "t1", 0, []⟩), (2, ⟨2, "g2", "t2", 1, []⟩)]]
     decide⟩
